import Mathlib

/-!
Verification of `unit_scaling/analysis.py`: a shallow embedding of the
analysis module (graph flattening, batch creation and plot rendering) and
proofs about its behaviour.

Conventions of the embedding:
  - Python floats become an inductive `MVal` (a rational, NaN, or infinity),
    so that the zero / NaN tests of `draw_arrow` are expressed exactly.
  - The annotated `torch.fx` graph becomes a list of `Node` records carrying
    the metadata keys the module reads (`name`, `clean_name`,
    `requires_grad`, `metrics`, argument names).
  - External collaborators (the pruning transforms, the tokenizer, the
    dataset and the model-tracking transform) are passed in as function
    arguments, exactly in the role the source gives them.
  - Stateful effects (matplotlib calls, tokenizer mutation) are made
    explicit: `plot` returns a trace of its effects, `_create_batch`
    returns the updated tokenizer alongside the batch.
-/

namespace UnitScaling

/-- A metric value: Python floats restricted to the cases the module
distinguishes (a finite rational, NaN, or an infinity). -/
inductive MVal where
  | finite (q : ℚ)
  | nan
  | inf
deriving DecidableEq

/-- Python `x == 0` on a float: NaN and infinities compare unequal to 0. -/
def MVal.isZero : MVal → Bool
  | .finite q => q == 0
  | _ => false

/-- Python `math.isnan`: true only for NaN (not for infinities). -/
def MVal.isnan : MVal → Bool
  | .nan => true
  | _ => false

/-- One direction of a `Metrics` annotation: the six statistics tracked for
a tensor (fields of the `Metrics` dataclass of `unit_scaling.transforms`). -/
structure DirectionalMetrics where
  mean_abs : MVal
  abs_mean : MVal
  std : MVal
  abs_max : MVal
  abs_min : MVal
  numel : MVal
deriving DecidableEq

/-- The `Metrics` annotation of a node: optional forward and backward
sub-records (`bwd` is `none` when no backward pass was run). -/
structure Metrics where
  fwd : Option DirectionalMetrics
  bwd : Option DirectionalMetrics
deriving DecidableEq

/-- Modelled from the spec: `Metrics.names()` of `unit_scaling.transforms`
(not under src/); the six metric attribute names, as listed in the
docstring of `plot` in `analysis.py`. -/
def Metrics.names : List String :=
  ["mean_abs", "abs_mean", "std", "abs_max", "abs_min", "numel"]

/-- Modelled from the spec: `Metrics.full_names()` of
`unit_scaling.transforms` (not under src/); the display names of the six
metrics ("number of elements" is witnessed by the repository test suite). -/
def Metrics.full_names : List String :=
  ["mean absolute value", "absolute mean", "standard deviation",
   "absolute maximum", "absolute minimum", "number of elements"]

/-- Modelled from the spec: `Metrics.get_full_name` of
`unit_scaling.transforms` (not under src/); maps a short metric name to its
display name and leaves any other string unchanged. -/
def Metrics.get_full_name (m : String) : String :=
  (List.lookup m (Metrics.names.zip Metrics.full_names)).getD m

/-- Python `getattr(metrics, direction, None)`: the directional sub-record
selected by the strings "fwd" / "bwd", `none` for any other string. -/
def Metrics.getDir (ms : Metrics) : String → Option DirectionalMetrics
  | "fwd" => ms.fwd
  | "bwd" => ms.bwd
  | _ => none

/-- Python `getattr(directional_metrics, m)` for the six attribute names
(`none` models the AttributeError raised for any other name). -/
def dmGet (dm : DirectionalMetrics) : String → Option MVal
  | "mean_abs" => some dm.mean_abs
  | "abs_mean" => some dm.abs_mean
  | "std" => some dm.std
  | "abs_max" => some dm.abs_max
  | "abs_min" => some dm.abs_min
  | "numel" => some dm.numel
  | _ => none

/-- A node of the annotated FX graph, with the metadata keys `analysis.py`
reads; `args` holds the names of the argument nodes. -/
structure Node where
  name : String
  clean_name : String
  requires_grad : Bool
  metrics : Metrics
  args : List String
deriving DecidableEq

/-- One row of the dataframe built by `graph_to_dataframe`: the four
identity columns followed by the six metric values (in `Metrics.names`
order, `none` for a missing directional record). -/
structure Row where
  layer : String
  weight_tensor : Bool
  direction : String
  tensor_type : String
  values : List (Option MVal)
deriving DecidableEq

/-- The row `graph_to_dataframe` appends for one node and one direction
(`analysis.py` lines 135-151). -/
def rowFor (n : Node) (direction : String) : Row :=
  { layer := n.clean_name
    weight_tensor := n.requires_grad
    direction := direction
    tensor_type :=
      (if direction = "fwd" then "" else "grad_")
        ++ (if n.requires_grad then "w" else "x")
    values := Metrics.names.map fun m =>
      (n.metrics.getDir direction).bind fun dm => dmGet dm m }

/-- `graph_to_dataframe` (`analysis.py` lines 106-157): skip nodes named
"output", emit a "fwd" row then a "bwd" row for every other node, in graph
order. -/
def graph_to_dataframe : List Node → List Row
  | [] => []
  | n :: ns =>
      (if n.name = "output" then []
       else [rowFor n "fwd", rowFor n "bwd"]) ++ graph_to_dataframe ns

/-- Helper: row count of the dataframe is twice the number of retained
nodes. -/
theorem graph_to_dataframe_length (g : List Node) :
    (graph_to_dataframe g).length
      = 2 * g.countP (fun n => !(n.name == "output")) := by
  induction g with
  | nil => rfl
  | cons n ns ih =>
      by_cases h : n.name = "output" <;>
        simp [graph_to_dataframe, h, ih, List.countP_cons] <;> omega

/-- Helper: the dataframe is the flat map of the per-node row pairs over
the retained nodes. -/
theorem graph_to_dataframe_eq_bind (g : List Node) :
    graph_to_dataframe g
      = (g.filter (fun n => !(n.name == "output"))).flatMap
          (fun n => [rowFor n "fwd", rowFor n "bwd"]) := by
  induction g with
  | nil => rfl
  | cons n ns ih =>
      by_cases h : n.name = "output" <;>
        simp [graph_to_dataframe, h, ih, List.filter_cons]

/-- Helper: a list's length splits into the "output"-named and the
remaining node counts. -/
theorem length_countP_output (g : List Node) :
    g.length = g.countP (fun n => n.name == "output")
      + g.countP (fun n => !(n.name == "output")) := by
  induction g with
  | nil => rfl
  | cons n ns ih =>
      by_cases h : n.name = "output" <;>
        simp [List.countP_cons, h, ih] <;> omega

/-- C1: `graph_to_dataframe` skips the node named "output" and emits, for
each remaining node in traversal order, exactly two rows (first "fwd",
then "bwd"), so when the graph has exactly one "output" node the table has
exactly 2 times (node count minus 1) rows. -/
theorem c1_flatten_rows (g : List Node)
    (h : g.countP (fun n => n.name == "output") = 1) :
    (graph_to_dataframe g).length = 2 * (g.length - 1) ∧
    graph_to_dataframe g
      = (g.filter (fun n => !(n.name == "output"))).flatMap
          (fun n => [rowFor n "fwd", rowFor n "bwd"]) ∧
    (∀ n : Node, (rowFor n "fwd").direction = "fwd"
      ∧ (rowFor n "bwd").direction = "bwd") := by
  refine ⟨?_, graph_to_dataframe_eq_bind g, fun n => ⟨rfl, rfl⟩⟩
  have hlen := length_countP_output g
  rw [graph_to_dataframe_length]
  omega

/-- A sample graph node used by the closed witnesses. -/
def sampleDM : DirectionalMetrics :=
  { mean_abs := .finite 1, abs_mean := .finite 1, std := .finite 1,
    abs_max := .finite 2, abs_min := .finite 1, numel := .finite 4 }

/-- A sample non-output node whose backward metrics are present. -/
def sampleNode : Node :=
  { name := "linear", clean_name := "linear", requires_grad := false,
    metrics := { fwd := some sampleDM, bwd := some sampleDM }, args := [] }

/-- A sample terminal node named "output". -/
def outputNode : Node :=
  { name := "output", clean_name := "output", requires_grad := false,
    metrics := { fwd := none, bwd := none }, args := [] }

/-- Witness for C1 on a concrete two-node graph. -/
theorem c1_flatten_rows_witness :
    ([sampleNode, outputNode].countP (fun n => n.name == "output") = 1) ∧
    ((graph_to_dataframe [sampleNode, outputNode]).length
        = 2 * ([sampleNode, outputNode].length - 1) ∧
      graph_to_dataframe [sampleNode, outputNode]
        = ([sampleNode, outputNode].filter
            (fun n => !(n.name == "output"))).flatMap
            (fun n => [rowFor n "fwd", rowFor n "bwd"]) ∧
      (∀ n : Node, (rowFor n "fwd").direction = "fwd"
        ∧ (rowFor n "bwd").direction = "bwd")) :=
  ⟨by decide, c1_flatten_rows [sampleNode, outputNode] (by decide)⟩

/-- C2: every row of the dataframe has tensor-type label equal to the
direction prefix (empty for "fwd", "grad_" otherwise) concatenated with
"w" exactly when the node's weight flag is true and "x" otherwise. -/
theorem c2_tensor_type (g : List Node) (r : Row)
    (hr : r ∈ graph_to_dataframe g) :
    r.tensor_type = (if r.direction = "fwd" then "" else "grad_")
      ++ (if r.weight_tensor then "w" else "x") := by
  induction g with
  | nil => cases hr
  | cons n ns ih =>
      rw [graph_to_dataframe, List.mem_append] at hr
      rcases hr with hr | hr
      · by_cases h : n.name = "output"
        · simp [h] at hr
        · simp only [h, if_false, List.mem_cons, List.mem_singleton,
            List.not_mem_nil, or_false] at hr
          rcases hr with rfl | rfl <;> rfl
      · exact ih hr

/-- Witness for C2 on a concrete row of a concrete graph. -/
theorem c2_tensor_type_witness :
    (rowFor sampleNode "bwd" ∈ graph_to_dataframe [sampleNode]) ∧
    (rowFor sampleNode "bwd").tensor_type
      = (if (rowFor sampleNode "bwd").direction = "fwd" then "" else "grad_")
        ++ (if (rowFor sampleNode "bwd").weight_tensor then "w" else "x") :=
  ⟨by decide, c2_tensor_type [sampleNode] (rowFor sampleNode "bwd")
    (by decide)⟩

/-- C7: a retained node whose backward metrics are absent still yields both
its forward and its backward row, and the backward row's six metric values
are all null; `graph_to_dataframe` is total, so no exception arises. -/
theorem c7_missing_bwd (g : List Node) (n : Node) (hn : n ∈ g)
    (hname : n.name ≠ "output") (hbwd : n.metrics.bwd = none) :
    rowFor n "fwd" ∈ graph_to_dataframe g ∧
    rowFor n "bwd" ∈ graph_to_dataframe g ∧
    (rowFor n "bwd").values = List.replicate 6 none ∧
    (rowFor n "bwd").values.length = Metrics.names.length := by
  refine ⟨?_, ?_, ?_, ?_⟩
  · induction g with
    | nil => cases hn
    | cons m ms ih =>
        rw [graph_to_dataframe, List.mem_append]
        rcases List.mem_cons.mp hn with rfl | hn
        · exact Or.inl (by simp [hname])
        · exact Or.inr (ih hn)
  · induction g with
    | nil => cases hn
    | cons m ms ih =>
        rw [graph_to_dataframe, List.mem_append]
        rcases List.mem_cons.mp hn with rfl | hn
        · exact Or.inl (by simp [hname])
        · exact Or.inr (ih hn)
  · simp [rowFor, Metrics.getDir, hbwd, Metrics.names, List.replicate]
  · simp [rowFor]

/-- A sample node with absent backward metrics. -/
def noBwdNode : Node :=
  { name := "relu", clean_name := "relu", requires_grad := false,
    metrics := { fwd := some sampleDM, bwd := none }, args := [] }

/-- Witness for C7 on a concrete graph containing a node without backward
metrics. -/
theorem c7_missing_bwd_witness :
    (rowFor noBwdNode "fwd" ∈ graph_to_dataframe [noBwdNode, outputNode] ∧
     rowFor noBwdNode "bwd" ∈ graph_to_dataframe [noBwdNode, outputNode] ∧
     (rowFor noBwdNode "bwd").values = List.replicate 6 none ∧
     (rowFor noBwdNode "bwd").values.length = Metrics.names.length) :=
  c7_missing_bwd [noBwdNode, outputNode] noBwdNode (by decide)
    (by decide) (by decide)


/-- True when the list starts with a decimal digit. -/
def firstIsDigit : List Char → Bool
  | [] => false
  | c :: _ => c.isDigit

/-- The scanning core of Python `re.sub(r"(^|_)\d+", "", s)` for positions
after the start of the string: a literal underscore followed by a greedy
digit run is removed, scanning resumes after the match. -/
def stripTokens : List Char → List Char
  | [] => []
  | c :: rest =>
      if c = '_' ∧ firstIsDigit rest then
        stripTokens (rest.dropWhile Char.isDigit)
      else c :: stripTokens rest
termination_by s => s.length
decreasing_by
  · simp only [List.length_cons]
    exact Nat.lt_succ_of_le (List.dropWhile_sublist _).length_le
  · simp

/-- Python `re.sub(r"(^|_)\d+", "", s)` (`analysis.py` line 279): the
start-of-string alternative removes a leading digit run, the rest of the
scan is `stripTokens`. -/
def reSubIndexTokens (s : List Char) : List Char :=
  stripTokens (s.dropWhile Char.isDigit)

/-- Python `s.replace(old, new)`: leftmost non-overlapping occurrences of
`pat` are replaced by `rep`, scanning resuming after each match. -/
def strReplace (pat rep : List Char) (s : List Char) : List Char :=
  match s with
  | [] => []
  | c :: rest =>
      if h : pat ≠ [] ∧ pat.isPrefixOf (c :: rest) then
        rep ++ strReplace pat rep ((c :: rest).drop pat.length)
      else c :: strReplace pat rep rest
termination_by s.length
decreasing_by
  · have hp : 0 < pat.length := List.length_pos.mpr h.1
    simp only [List.length_drop, List.length_cons]
    omega
  · simp

/-- `_rename` (`analysis.py` lines 278-283): strip index tokens, then drop
the prefixes "self_", "transformer_h_" and "transformer_", in that order. -/
def rename (s : List Char) : List Char :=
  let s1 := reSubIndexTokens s
  let s2 := strReplace ("self_".toList) [] s1
  let s3 := strReplace ("transformer_h_".toList) [] s2
  strReplace ("transformer_".toList) [] s3

/-- The segments of a string between its underscores (spec-side view). -/
def parts : List Char → List (List Char)
  | [] => [[]]
  | c :: rest =>
      if c = '_' then [] :: parts rest
      else
        match parts rest with
        | [] => [[c]]
        | p :: ps => (c :: p) :: ps

/-- Spec-side treatment of a non-initial segment: a segment that starts
with a digit loses its digit run together with the underscore before it;
any other segment keeps its underscore. -/
def specSegment (p : List Char) : List Char :=
  if firstIsDigit p then p.dropWhile Char.isDigit else '_' :: p

/-- The cleaning step as the spec words it: strip the leading digit run of
the string and every underscore-followed-by-digits token, segment by
segment. -/
def stripIndexTokensSpec (s : List Char) : List Char :=
  match parts s with
  | [] => []
  | p :: ps => p.dropWhile Char.isDigit ++ (ps.map specSegment).flatten

/-- The spec-side counterpart of `stripTokens` (no start-of-string rule). -/
def specTail (s : List Char) : List Char :=
  match parts s with
  | [] => []
  | p :: ps => p ++ (ps.map specSegment).flatten

/-- Helper: segmentation after an underscore. -/
theorem parts_underscore (r : List Char) :
    parts ('_' :: r) = [] :: parts r := by
  simp [parts]

/-- Helper: segmentation after a non-underscore character. -/
theorem parts_other (c : Char) (r : List Char) (hc : c ≠ '_')
    (q : List Char) (qs : List (List Char)) (hq : parts r = q :: qs) :
    parts (c :: r) = (c :: q) :: qs := by
  simp [parts, hc, hq]

/-- Helper: `parts` never returns the empty list of segments. -/
theorem parts_ne_nil (s : List Char) : parts s ≠ [] := by
  cases s with
  | nil => simp [parts]
  | cons c rest =>
      by_cases h : c = '_'
      · simp [parts, h]
      · cases hp : parts rest <;> simp [parts, h, hp]

/-- Helper: the first segment starts with a digit exactly when the string
does. -/
theorem firstIsDigit_parts (rest : List Char) (p : List Char)
    (ps : List (List Char)) (hp : parts rest = p :: ps) :
    firstIsDigit p = firstIsDigit rest := by
  cases rest with
  | nil =>
      simp only [parts, List.cons.injEq] at hp
      rw [← hp.1]
  | cons c r =>
      by_cases h : c = '_'
      · subst h
        rw [parts_underscore] at hp
        injection hp with h1 h2
        rw [← h1]
        simp only [firstIsDigit]
        decide
      · cases hq : parts r with
        | nil => exact absurd hq (parts_ne_nil r)
        | cons q qs =>
            rw [parts_other c r h q qs hq] at hp
            injection hp with h1 h2
            rw [← h1]
            rfl

/-- Helper: dropping a leading digit run commutes with segmentation. -/
theorem parts_dropWhile_digit (rest : List Char) (p : List Char)
    (ps : List (List Char)) (hp : parts rest = p :: ps) :
    parts (rest.dropWhile Char.isDigit) = p.dropWhile Char.isDigit :: ps := by
  induction rest generalizing p ps with
  | nil =>
      simp only [parts, List.cons.injEq] at hp
      simp [List.dropWhile, parts, ← hp.1, ← hp.2]
  | cons c r ih =>
      by_cases hd : c.isDigit
      · have hc : c ≠ '_' := by
          intro hcu
          subst hcu
          simp at hd
        cases hq : parts r with
        | nil => exact absurd hq (parts_ne_nil r)
        | cons q qs =>
            rw [parts_other c r hc q qs hq] at hp
            injection hp with h1 h2
            rw [List.dropWhile_cons_of_pos hd, ih q qs hq, ← h1, ← h2,
              List.dropWhile_cons_of_pos hd]
      · rw [List.dropWhile_cons_of_neg hd, hp]
        congr 1
        by_cases hc : c = '_'
        · subst hc
          rw [parts_underscore] at hp
          injection hp with h1 h2
          rw [← h1]
          rfl
        · cases hq : parts r with
          | nil => exact absurd hq (parts_ne_nil r)
          | cons q qs =>
              rw [parts_other c r hc q qs hq] at hp
              injection hp with h1 h2
              rw [← h1, List.dropWhile_cons_of_neg hd]

/-- Helper: unfolding `specTail` through its segment decomposition. -/
theorem specTail_eq (s : List Char) (p : List Char) (ps : List (List Char))
    (hp : parts s = p :: ps) :
    specTail s = p ++ (ps.map specSegment).flatten := by
  simp [specTail, hp]

/-- Helper: the scanning stripper agrees with the segment-based spec
description away from the start of the string. -/
theorem stripTokens_eq_specTail_aux :
    ∀ n (s : List Char), s.length ≤ n → stripTokens s = specTail s := by
  intro n
  induction n with
  | zero =>
      intro s hs
      have h0 : s = [] := List.eq_nil_of_length_eq_zero (Nat.le_zero.mp hs)
      subst h0
      simp [stripTokens, specTail, parts]
  | succ n ih =>
      intro s hs
      cases s with
      | nil => simp [stripTokens, specTail, parts]
      | cons c rest =>
          have hrest : rest.length ≤ n := by
            simp only [List.length_cons] at hs
            omega
          cases hq : parts rest with
          | nil => exact absurd hq (parts_ne_nil rest)
          | cons q qs =>
              by_cases hcond : c = '_' ∧ firstIsDigit rest
              · obtain ⟨hc, hdig⟩ := hcond
                subst hc
                rw [show stripTokens ('_' :: rest)
                    = stripTokens (rest.dropWhile Char.isDigit) by
                  simp [stripTokens, hdig]]
                have hlen : (rest.dropWhile Char.isDigit).length ≤ n :=
                  Nat.le_trans (List.dropWhile_sublist _).length_le hrest
                rw [ih _ hlen,
                  specTail_eq _ _ _ (parts_dropWhile_digit rest q qs hq),
                  specTail_eq ('_' :: rest) [] (q :: qs)
                    (by rw [parts_underscore, hq])]
                have hqd : firstIsDigit q = true :=
                  (firstIsDigit_parts rest q qs hq).trans hdig
                simp [specSegment, hqd]
              · rw [show stripTokens (c :: rest) = c :: stripTokens rest by
                  simp only [stripTokens, if_neg hcond]]
                rw [ih rest hrest]
                by_cases hc : c = '_'
                · subst hc
                  have hdig : firstIsDigit rest = false := by
                    rcases Bool.eq_false_or_eq_true (firstIsDigit rest)
                      with h | h
                    · exact absurd ⟨rfl, h⟩ hcond
                    · exact h
                  rw [specTail_eq ('_' :: rest) [] (q :: qs)
                      (by rw [parts_underscore, hq]),
                    specTail_eq rest q qs hq]
                  have hqd : firstIsDigit q = false :=
                    (firstIsDigit_parts rest q qs hq).trans hdig
                  simp [specSegment, hqd]
                · rw [specTail_eq (c :: rest) (c :: q) qs
                      (parts_other c rest hc q qs hq),
                    specTail_eq rest q qs hq]
                  simp

/-- Helper: the regex-sub translation equals the segment-based spec
description of index-token stripping. -/
theorem reSubIndexTokens_eq_spec (s : List Char) :
    reSubIndexTokens s = stripIndexTokensSpec s := by
  cases hp : parts s with
  | nil => exact absurd hp (parts_ne_nil s)
  | cons p ps =>
      rw [reSubIndexTokens,
        stripTokens_eq_specTail_aux (s.dropWhile Char.isDigit).length _
          (Nat.le_refl _),
        specTail_eq _ _ _ (parts_dropWhile_digit s p ps hp)]
      simp [stripIndexTokensSpec, hp]

/-- C9: the layer-name cleaning used by `plot` strips every index token (a
leading digit run, or an underscore followed by a digit run) and then
removes the prefixes "self_", "transformer_h_" and "transformer_" wherever
they occur, in that order. -/
theorem c9_rename_cleaning (s : List Char) :
    rename s
      = strReplace ("transformer_".toList) []
          (strReplace ("transformer_h_".toList) []
            (strReplace ("self_".toList) [] (stripIndexTokensSpec s))) := by
  simp [rename, reSubIndexTokens_eq_spec]

/-- The tokenizer collaborator, as the module uses it: an encoding
function from text to token ids, and settable pad / end-of-sequence token
properties. -/
structure Tokenizer where
  encode : String → List Nat
  padToken : Option Nat
  eosToken : Option Nat

/-- The huggingface call `tokenizer(seqs, max_length, truncation=True,
padding=True)`: each text's token ids are truncated to `maxLength`, then
every row is right-padded with the pad token to the longest row; the
attention mask is 1 on token positions and 0 on padding. Without a pad
token the call raises (`none`). -/
def tokenizerCall (t : Tokenizer) (seqs : List String) (maxLength : Nat) :
    Option (List (List Nat) × List (List Nat)) :=
  match t.padToken with
  | none => none
  | some pid =>
      let tokss := seqs.map fun s => (t.encode s).take maxLength
      let width := tokss.foldr (fun r acc => max r.length acc) 0
      some (tokss.map fun r => r ++ List.replicate (width - r.length) pid,
            tokss.map fun r =>
              List.replicate r.length 1 ++ List.replicate (width - r.length) 0)

/-- `_create_batch` (`analysis.py` lines 52-65): substitute the
end-of-sequence token as pad token when none is set (an in-place tokenizer
mutation, made explicit by returning the updated tokenizer), tokenize with
`max_length = seq_len + 1`, and slice `input_ids` to the first `seq_len`
columns, the attention mask likewise, and `labels` to columns
`1 .. seq_len + 1`. -/
def createBatch (t : Tokenizer) (seqs : List String) (seq_len : Nat) :
    Tokenizer × Option (List (List Nat) × List (List Nat) × List (List Nat)) :=
  let t := if t.padToken = none then { t with padToken := t.eosToken } else t
  match tokenizerCall t seqs (seq_len + 1) with
  | none => (t, none)
  | some (ids, mask) =>
      (t, some (ids.map (List.take seq_len), mask.map (List.take seq_len),
                ids.map fun r => (r.drop 1).take seq_len))

/-- `example_batch` (`analysis.py` lines 68-103): fetch example sequences
of at least `seq_len * 4` characters from the dataset collaborator
(`_example_seqs`, passed here as the function `seqsOf`), then call
`_create_batch`. -/
def example_batch (seqsOf : Nat → Nat → List String) (t : Tokenizer)
    (batch_size seq_len : Nat) :
    Tokenizer × Option (List (List Nat) × List (List Nat) × List (List Nat)) :=
  createBatch t (seqsOf batch_size (seq_len * 4)) seq_len

/-- A tokenizer whose texts all tokenize to a single token; its pad token
is set. -/
def cexTokenizer : Tokenizer :=
  { encode := fun _ => [7], padToken := some 0, eosToken := some 0 }

/-- Counterexample to C4 as stated: with `seq_len = 2` and one text that
tokenizes to a single token, `_create_batch` returns rows of widths 1, 1
and 0 rather than three tensors of shape (1, 2): padding only reaches the
longest tokenized sequence, not `seq_len`. -/
theorem c4_counterexample :
    (createBatch cexTokenizer ["a"] 2).2 = some ([[7]], [[1]], [[]])
      ∧ ¬ (∀ r ∈ [([7] : List Nat)], r.length = 2) := by
  constructor
  · rfl
  · decide

/-- Helper: an upper bound for the fold computing the padded width. -/
theorem foldr_max_le (l : List (List Nat)) (n : Nat)
    (h : ∀ x ∈ l, x.length ≤ n) :
    l.foldr (fun r acc => max r.length acc) 0 ≤ n := by
  induction l with
  | nil => exact Nat.zero_le n
  | cons x xs ih =>
      simp only [List.foldr_cons, max_le_iff]
      exact ⟨h x (List.mem_cons_self x xs),
        ih fun y hy => h y (List.mem_cons_of_mem x hy)⟩

/-- Helper: every row bounds the fold computing the padded width. -/
theorem le_foldr_max (l : List (List Nat)) (x : List Nat) (hx : x ∈ l) :
    x.length ≤ l.foldr (fun r acc => max r.length acc) 0 := by
  induction l with
  | nil => cases hx
  | cons y ys ih =>
      rcases List.mem_cons.mp hx with rfl | hx
      · exact le_max_left _ _
      · exact le_trans (ih hx) (le_max_right _ _)

/-- Helper: taking `n` of a row padded out to width `W` is the truncated
row padded out to `min n W`. -/
theorem take_append_replicate (l : List Nat) (pid W n : Nat)
    (hl : l.length ≤ W) :
    (l ++ List.replicate (W - l.length) pid).take n
      = l.take n ++ List.replicate (min n W - (l.take n).length) pid := by
  have hmin : min (n - l.length) (W - l.length)
      = min n W - min n l.length := by omega
  rw [List.take_append_eq_append_take, List.take_replicate,
    List.length_take, hmin]

/-- The padded width chosen by `tokenizerCall`: the longest truncated row. -/
def tokWidth (t : Tokenizer) (seqs : List String) (m : Nat) : Nat :=
  (seqs.map fun s => (t.encode s).take m).foldr (fun r acc => max r.length acc) 0

/-- Helper: the explicit form of a successful `tokenizerCall`. -/
theorem tokenizerCall_eq (t : Tokenizer) (pid : Nat)
    (hpad : t.padToken = some pid) (seqs : List String) (m : Nat) :
    tokenizerCall t seqs m = some (
      seqs.map (fun s => (t.encode s).take m
        ++ List.replicate (tokWidth t seqs m - ((t.encode s).take m).length) pid),
      seqs.map (fun s => List.replicate ((t.encode s).take m).length 1
        ++ List.replicate (tokWidth t seqs m - ((t.encode s).take m).length) 0)) := by
  simp only [tokenizerCall, hpad, List.map_map]
  rfl

/-- Helper: the width is exactly `m` once one sequence reaches `m` tokens. -/
theorem tokWidth_eq (t : Tokenizer) (seqs : List String) (m : Nat)
    (hlong : ∃ s ∈ seqs, m ≤ (t.encode s).length) :
    tokWidth t seqs m = m := by
  apply le_antisymm
  · apply foldr_max_le
    intro x hx
    rcases List.mem_map.mp hx with ⟨s, hs, rfl⟩
    rw [List.length_take]
    omega
  · rcases hlong with ⟨s0, hs0, h0⟩
    have hx : (t.encode s0).take m ∈ seqs.map (fun s => (t.encode s).take m) :=
      List.mem_map_of_mem _ hs0
    have hle := le_foldr_max _ _ hx
    rwa [List.length_take, Nat.min_eq_left h0] at hle

/-- Helper: slicing a padded row to the first `n` of `n + 1` columns. -/
theorem row_ids_eq (l : List Nat) (pid n : Nat) :
    ((l.take (n + 1))
        ++ List.replicate ((n + 1) - (l.take (n + 1)).length) pid).take n
      = l.take n ++ List.replicate (n - (l.take n).length) pid := by
  rw [take_append_replicate _ _ _ _ (by rw [List.length_take]; omega),
    List.take_take, Nat.min_eq_left (Nat.le_succ n)]

/-- Helper: slicing a padded row to columns `1 .. n + 1`. -/
theorem row_labels_eq (l : List Nat) (pid n : Nat) :
    (((l.take (n + 1))
        ++ List.replicate ((n + 1) - (l.take (n + 1)).length) pid).drop 1).take n
      = (l.drop 1).take n
        ++ List.replicate (n - ((l.drop 1).take n).length) pid := by
  rw [List.drop_append_eq_append_drop, List.drop_replicate]
  have h1 : (l.take (n + 1)).drop 1 = (l.drop 1).take n := by
    rw [List.drop_take]
    norm_num
  have h2 : ((n + 1) - (l.take (n + 1)).length) - (1 - (l.take (n + 1)).length)
      = n - ((l.drop 1).take n).length := by
    simp only [List.length_take, List.length_drop]
    omega
  rw [h1, h2]
  apply List.take_of_length_le
  simp only [List.length_append, List.length_replicate, List.length_take,
    List.length_drop]
  omega

/-- Helper: slicing a padded attention-mask row to the first `n` columns. -/
theorem row_mask_eq (l : List Nat) (n : Nat) :
    ((List.replicate (l.take (n + 1)).length 1
        ++ List.replicate ((n + 1) - (l.take (n + 1)).length) 0)).take n
      = List.replicate (min n l.length) 1
        ++ List.replicate (n - min n l.length) 0 := by
  have hbase : ((n + 1) - (l.take (n + 1)).length)
      = ((n + 1) - (List.replicate (l.take (n + 1)).length (1 : Nat)).length) := by
    rw [List.length_replicate]
  rw [hbase, take_append_replicate _ _ _ _
      (by rw [List.length_replicate, List.length_take]; omega),
    List.take_replicate, List.length_replicate]
  have h1 : min n (l.take (n + 1)).length = min n l.length := by
    rw [List.length_take]
    omega
  have h2 : min n (n + 1) - min n (l.take (n + 1)).length
      = n - min n l.length := by
    rw [List.length_take]
    omega
  rw [h2, h1]

/-- Helper: a successful `tokenizerCall` at `max_length = n + 1` when some
sequence reaches `n + 1` tokens, so the padded width is exactly `n + 1`. -/
theorem tokenizerCall_sliced (t : Tokenizer) (pid : Nat)
    (hpad : t.padToken = some pid) (seqs : List String) (n : Nat)
    (hlong : ∃ s ∈ seqs, n + 1 ≤ (t.encode s).length) :
    tokenizerCall t seqs (n + 1) = some (
      seqs.map (fun s => (t.encode s).take (n + 1)
        ++ List.replicate ((n + 1) - ((t.encode s).take (n + 1)).length) pid),
      seqs.map (fun s => List.replicate ((t.encode s).take (n + 1)).length 1
        ++ List.replicate ((n + 1) - ((t.encode s).take (n + 1)).length) 0)) := by
  rw [tokenizerCall_eq t pid hpad, tokWidth_eq t seqs (n + 1) hlong]

/-- C4 as amended: provided the pad token resolves (a pad or else an
end-of-sequence token exists) and at least one text tokenizes to at least
`seq_len + 1` tokens (as the callers' minimum-length filtering ensures),
`_create_batch` returns three matrices of shape (batch size, seq_len):
`input_ids` is the first `seq_len` tokens of each sequence padded with the
pad token, `attention_mask` is 1 exactly on the non-pad positions, and
`labels` is each untruncated token stream shifted by one (position `i`
holds token `i + 1`), truncated at `seq_len` and padded. -/
theorem c4_createBatch_amended (t : Tokenizer) (seqs : List String)
    (seq_len : Nat) (pid : Nat)
    (hpid : (if t.padToken = none then t.eosToken else t.padToken) = some pid)
    (hlong : ∃ s ∈ seqs, seq_len + 1 ≤ (t.encode s).length) :
    (createBatch t seqs seq_len).2 = some
      (seqs.map (fun s => (t.encode s).take seq_len
          ++ List.replicate (seq_len - ((t.encode s).take seq_len).length) pid),
       seqs.map (fun s => List.replicate (min seq_len (t.encode s).length) 1
          ++ List.replicate (seq_len - min seq_len (t.encode s).length) 0),
       seqs.map (fun s => ((t.encode s).drop 1).take seq_len
          ++ List.replicate
              (seq_len - (((t.encode s).drop 1).take seq_len).length) pid))
    ∧ (seqs.map (fun s => (t.encode s).take seq_len
          ++ List.replicate (seq_len - ((t.encode s).take seq_len).length)
            pid)).length = seqs.length
    ∧ (∀ r ∈ seqs.map (fun s => (t.encode s).take seq_len
          ++ List.replicate (seq_len - ((t.encode s).take seq_len).length)
            pid), r.length = seq_len)
    ∧ (∀ r ∈ seqs.map (fun s =>
          List.replicate (min seq_len (t.encode s).length) 1
          ++ List.replicate (seq_len - min seq_len (t.encode s).length) 0),
        r.length = seq_len)
    ∧ (∀ r ∈ seqs.map (fun s => ((t.encode s).drop 1).take seq_len
          ++ List.replicate
              (seq_len - (((t.encode s).drop 1).take seq_len).length) pid),
        r.length = seq_len) := by
  refine ⟨?_, List.length_map _ _, ?_, ?_, ?_⟩
  · by_cases hp : t.padToken = none
    · rw [if_pos hp] at hpid
      have hcall := tokenizerCall_sliced { t with padToken := t.eosToken }
        pid hpid seqs seq_len hlong
      unfold createBatch
      rw [if_pos hp]
      simp only [hcall, List.map_map]
      refine congrArg some ?_
      refine Prod.ext ?_ (Prod.ext ?_ ?_)
      · exact List.map_congr_left fun s _ => row_ids_eq (t.encode s) pid seq_len
      · refine List.map_congr_left fun s _ => ?_
        exact row_mask_eq (t.encode s) seq_len
      · refine List.map_congr_left fun s _ => ?_
        exact row_labels_eq (t.encode s) pid seq_len
    · rw [if_neg hp] at hpid
      have hcall := tokenizerCall_sliced t pid hpid seqs seq_len hlong
      unfold createBatch
      rw [if_neg hp]
      simp only [hcall, List.map_map]
      refine congrArg some ?_
      refine Prod.ext ?_ (Prod.ext ?_ ?_)
      · exact List.map_congr_left fun s _ => row_ids_eq (t.encode s) pid seq_len
      · refine List.map_congr_left fun s _ => ?_
        exact row_mask_eq (t.encode s) seq_len
      · refine List.map_congr_left fun s _ => ?_
        exact row_labels_eq (t.encode s) pid seq_len
  · intro r hr
    rcases List.mem_map.mp hr with ⟨s, hs, rfl⟩
    simp only [List.length_append, List.length_replicate, List.length_take]
    omega
  · intro r hr
    rcases List.mem_map.mp hr with ⟨s, hs, rfl⟩
    simp only [List.length_append, List.length_replicate]
    omega
  · intro r hr
    rcases List.mem_map.mp hr with ⟨s, hs, rfl⟩
    simp only [List.length_append, List.length_replicate, List.length_take,
      List.length_drop]
    omega

/-- A tokenizer with no pad token whose texts tokenize to four tokens. -/
def wtTokenizer : Tokenizer :=
  { encode := fun _ => [10, 11, 12, 13], padToken := none,
    eosToken := some 0 }

/-- Witness for the amended C4 on a concrete tokenizer and batch. -/
theorem c4_createBatch_amended_witness :
    (createBatch wtTokenizer ["a"] 3).2 = some
      ((["a"] : List String).map (fun s => (wtTokenizer.encode s).take 3
          ++ List.replicate (3 - ((wtTokenizer.encode s).take 3).length) 0),
       (["a"] : List String).map (fun s =>
          List.replicate (min 3 (wtTokenizer.encode s).length) 1
          ++ List.replicate (3 - min 3 (wtTokenizer.encode s).length) 0),
       (["a"] : List String).map (fun s =>
          ((wtTokenizer.encode s).drop 1).take 3
          ++ List.replicate
              (3 - (((wtTokenizer.encode s).drop 1).take 3).length) 0))
    ∧ ((["a"] : List String).map (fun s => (wtTokenizer.encode s).take 3
          ++ List.replicate (3 - ((wtTokenizer.encode s).take 3).length)
            0)).length = (["a"] : List String).length
    ∧ (∀ r ∈ (["a"] : List String).map (fun s =>
          (wtTokenizer.encode s).take 3
          ++ List.replicate (3 - ((wtTokenizer.encode s).take 3).length) 0),
        r.length = 3)
    ∧ (∀ r ∈ (["a"] : List String).map (fun s =>
          List.replicate (min 3 (wtTokenizer.encode s).length) 1
          ++ List.replicate (3 - min 3 (wtTokenizer.encode s).length) 0),
        r.length = 3)
    ∧ (∀ r ∈ (["a"] : List String).map (fun s =>
          ((wtTokenizer.encode s).drop 1).take 3
          ++ List.replicate
              (3 - (((wtTokenizer.encode s).drop 1).take 3).length) 0),
        r.length = 3) :=
  c4_createBatch_amended wtTokenizer ["a"] 3 0 (by rfl)
    ⟨"a", List.mem_singleton.mpr rfl, by decide⟩

/-- The warning text of `draw_arrow` (without the quote characters),
identifying the offending node. -/
def warnMsg (name : String) : String :=
  "Node " ++ name ++ " is NaN. Plotting as 0"

/-- Python `node_idxs[name]`: lookup in the association list built by the
node-index loop of `plot`. -/
def lookupIdx (idxs : List (String × Nat)) (s : String) : Nat :=
  (idxs.lookup s).getD 0

/-- The observable effect of one `draw_arrow` call: the warnings logged,
and (when an annotate call happens) the head point, the tail point and the
annotation text. -/
structure ArrowEffect where
  warnings : List String
  drawn : Option ((MVal × Nat) × (MVal × Nat) × String)
deriving DecidableEq

/-- `draw_arrow` (`analysis.py` lines 381-425), as an effect trace: the
outer `none` models an exception (missing attribute or failed assertion);
`drawn = none` inside models a call that returns without annotating. -/
def draw_arrow (metric : String) (minScale : ℚ) (show_zero_tensors : Bool)
    (nodeIdxs : List (String × Nat)) (node_a node_b : Node)
    (direction : String) : Option ArrowEffect :=
  if direction = "bwd"
      ∧ (node_a.metrics.bwd = none ∨ node_b.metrics.bwd = none) then
    some { warnings := [], drawn := none }
  else
    match node_a.metrics.getDir direction, node_b.metrics.getDir direction with
    | some am, some bm =>
        match dmGet am metric, dmGet bm metric with
        | some ax0, some bx0 =>
            let a_y := lookupIdx nodeIdxs node_a.clean_name
            let b_y := lookupIdx nodeIdxs node_b.clean_name
            let a_x := if ax0.isZero || ax0.isnan then MVal.finite minScale
              else ax0
            let warnA : List String :=
              if a_x.isnan then [warnMsg node_a.clean_name] else []
            let a_x := if a_x.isnan then MVal.finite minScale else a_x
            let bp := if bx0.isZero then (MVal.finite minScale, "0")
              else (bx0, "")
            let warnB : List String :=
              if bp.1.isnan then [warnMsg node_b.clean_name] else []
            let ann := if bp.1.isnan then "0" else bp.2
            let b_x := if bp.1.isnan then MVal.finite minScale else bp.1
            if direction = "fwd" then
              if ann = "0" ∧ ¬ show_zero_tensors then
                some { warnings := warnA ++ warnB, drawn := none }
              else
                some { warnings := warnA ++ warnB,
                       drawn := some ((a_x, a_y), (b_x, b_y), ann) }
            else if direction = "bwd" then
              if ann = "0" ∧ ¬ show_zero_tensors then
                some { warnings := warnA ++ warnB, drawn := none }
              else
                some { warnings := warnA ++ warnB,
                       drawn := some ((b_x, b_y), (a_x, a_y), ann) }
            else none
        | _, _ => none
    | _, _ => none

/-- The node-index loop of `plot` (`analysis.py` lines 324-332): each
distinct clean name of a non-output node, in first-seen order. -/
def buildIdxs (g : List Node) : List (String × Nat) :=
  (g.foldl (fun acc n =>
    if n.name = "output" then acc
    else if (acc.1.lookup n.clean_name).isSome then acc
    else (acc.1 ++ [(n.clean_name, acc.2)], acc.2 + 1))
    (([], 0) : List (String × Nat) × Nat)).1

/-- The trace of one `plot` call: the graph it flattens, the dataframe,
the x-axis metric display name, the plot height, the vertical reference
lines, the texts placed above the plot area, and the arrow effects. -/
structure PlotResult where
  prunedGraph : List Node
  df : List Row
  xMetric : String
  plotHeight : Nat
  vlines : List ℚ
  texts : List (ℚ × ℚ × String)
  arrows : List (Option ArrowEffect)
deriving DecidableEq

/-- `plot` (`analysis.py` lines 160-441) as a trace-returning function.
The pruning transforms of `unit_scaling.transforms` are collaborator
arguments; `xlim` stands for the matplotlib-chosen axis limits that
`xmin` / `xmax` may override. The metric assertion is the first step:
on failure nothing is computed or drawn (`Except.error`). -/
def plot (pruneNonFloat pruneSameScale : List Node → List Node)
    (g : List Node) (title metric : String)
    (prune_same_scale show_arrows show_error_bars show_zero_tensors : Bool)
    (xlim : ℚ × ℚ) (xmin xmax : Option ℚ) : Except String PlotResult :=
  if metric ∈ Metrics.names ++ Metrics.full_names then
    let full_metric := Metrics.get_full_name metric
    let g2 :=
      if prune_same_scale then pruneSameScale (pruneNonFloat g)
      else pruneNonFloat g
    let df := graph_to_dataframe g2
    let plot_height := (df.map Row.layer).dedup.length
    let vlines : List ℚ :=
      [((2 : ℚ) ^ (14 : Nat))⁻¹, ((2 : ℚ) ^ (7 : Nat))⁻¹, 240,
        (2 : ℚ) ^ (16 : Nat)]
    let texts : List (ℚ × ℚ × String) :=
      [(((2 : ℚ) ^ (14 : Nat))⁻¹, (plot_height : ℚ) + 1 / 5,
          "FP16 min,\nFP8 E5 min\n(normal)"),
       (((2 : ℚ) ^ (7 : Nat))⁻¹, (plot_height : ℚ) + 1 / 5,
          "FP8 E4 min\n(normal)"),
       (240, (plot_height : ℚ) + 1 / 5, "FP8 E4 max"),
       ((2 : ℚ) ^ (16 : Nat), (plot_height : ℚ) + 1 / 5,
          "FP16 max,\nFP8 E5 max")]
    let node_idxs := buildIdxs g2
    let min_scale := xmin.getD xlim.1
    let arrows :=
      if show_arrows then
        (g2.filter (fun n => !(n.name == "output"))).flatMap (fun n =>
          (["fwd", "bwd"]).flatMap (fun d =>
            n.args.filterMap (fun argName =>
              (g2.find? (fun m => m.name == argName)).map (fun m =>
                draw_arrow metric min_scale show_zero_tensors node_idxs
                  n m d))))
      else []
    Except.ok { prunedGraph := g2, df := df, xMetric := full_metric,
                plotHeight := plot_height, vlines := vlines, texts := texts,
                arrows := arrows }
  else
    Except.error ("metric " ++ metric
      ++ " must be one of the recognized metric names")

/-- C3: `plot` succeeds exactly when the metric is one of the six
recognized names or their display names; an unrecognized metric produces a
hard error before any plot state is computed or drawn. -/
theorem c3_plot_metric_check (pnf psc : List Node → List Node)
    (g : List Node) (title metric : String)
    (prune_same_scale show_arrows show_error_bars show_zero_tensors : Bool)
    (xlim : ℚ × ℚ) (xmin xmax : Option ℚ) :
    (∃ r, plot pnf psc g title metric prune_same_scale show_arrows
        show_error_bars show_zero_tensors xlim xmin xmax = Except.ok r)
      ↔ metric ∈ Metrics.names ++ Metrics.full_names := by
  constructor
  · rintro ⟨r, hr⟩
    by_contra hm
    unfold plot at hr
    rw [if_neg hm] at hr
    cases hr
  · intro hm
    exact ⟨_, by unfold plot; rw [if_pos hm]⟩

/-- C6: every `plot` call that passes the metric check draws exactly four
vertical reference lines, at the float16 min-normal `2 ^ (-14)`, the FP8 E4
min-normal `2 ^ (-7)`, the FP8 E4 max `240` and the float16 / FP8 E5 max
`2 ^ 16`, each with a text annotation at the same x-position placed just
above the plot area (y = plot height + 0.2). -/
theorem c6_reference_lines (pnf psc : List Node → List Node)
    (g : List Node) (title metric : String)
    (prune_same_scale show_arrows show_error_bars show_zero_tensors : Bool)
    (xlim : ℚ × ℚ) (xmin xmax : Option ℚ)
    (h : metric ∈ Metrics.names ++ Metrics.full_names) (r : PlotResult)
    (hr : plot pnf psc g title metric prune_same_scale show_arrows
        show_error_bars show_zero_tensors xlim xmin xmax = Except.ok r) :
    r.vlines = [((2 : ℚ) ^ (14 : Nat))⁻¹, ((2 : ℚ) ^ (7 : Nat))⁻¹, 240,
        (2 : ℚ) ^ (16 : Nat)]
    ∧ r.vlines.length = 4
    ∧ r.texts.map (fun e => e.1) = r.vlines
    ∧ r.texts.map (fun e => e.2.1)
        = List.replicate 4 ((r.plotHeight : ℚ) + 1 / 5)
    ∧ r.texts.map (fun e => e.2.2)
        = ["FP16 min,\nFP8 E5 min\n(normal)", "FP8 E4 min\n(normal)",
           "FP8 E4 max", "FP16 max,\nFP8 E5 max"] := by
  unfold plot at hr
  rw [if_pos h] at hr
  simp only [Except.ok.injEq] at hr
  subst hr
  exact ⟨rfl, rfl, rfl, rfl, rfl⟩

/-- C8: `plot` always applies the non-float pruning policy, applies the
same-scale pruning policy exactly when the flag is set, and flattens the
resulting graph into its dataframe. -/
theorem c8_pruning (pnf psc : List Node → List Node)
    (g : List Node) (title metric : String)
    (prune_same_scale show_arrows show_error_bars show_zero_tensors : Bool)
    (xlim : ℚ × ℚ) (xmin xmax : Option ℚ)
    (h : metric ∈ Metrics.names ++ Metrics.full_names) (r : PlotResult)
    (hr : plot pnf psc g title metric prune_same_scale show_arrows
        show_error_bars show_zero_tensors xlim xmin xmax = Except.ok r) :
    r.prunedGraph
        = (if prune_same_scale then psc (pnf g) else pnf g)
    ∧ r.df = graph_to_dataframe
        (if prune_same_scale then psc (pnf g) else pnf g) := by
  unfold plot at hr
  rw [if_pos h] at hr
  simp only [Except.ok.injEq] at hr
  subst hr
  exact ⟨rfl, rfl⟩

/-- The identically-empty pruning collaborator used by the witnesses. -/
def pW : List Node → List Node := fun _ => []

/-- The trace `plot` produces on the empty graph with both pruning
policies returning the empty graph. -/
def plotResultW : PlotResult :=
  { prunedGraph := [], df := [], xMetric := "mean absolute value",
    plotHeight := 0,
    vlines := [((2 : ℚ) ^ (14 : Nat))⁻¹, ((2 : ℚ) ^ (7 : Nat))⁻¹, 240,
      (2 : ℚ) ^ (16 : Nat)],
    texts :=
      [(((2 : ℚ) ^ (14 : Nat))⁻¹, ((0 : Nat) : ℚ) + 1 / 5,
          "FP16 min,\nFP8 E5 min\n(normal)"),
       (((2 : ℚ) ^ (7 : Nat))⁻¹, ((0 : Nat) : ℚ) + 1 / 5,
          "FP8 E4 min\n(normal)"),
       (240, ((0 : Nat) : ℚ) + 1 / 5, "FP8 E4 max"),
       ((2 : ℚ) ^ (16 : Nat), ((0 : Nat) : ℚ) + 1 / 5,
          "FP16 max,\nFP8 E5 max")],
    arrows := [] }

/-- Witness for C6 on a concrete `plot` call. -/
theorem c6_reference_lines_witness :
    ("mean_abs" ∈ Metrics.names ++ Metrics.full_names)
    ∧ (plot pW pW [] "" "mean_abs" true false false false (1, 1) none none
        = Except.ok plotResultW)
    ∧ (plotResultW.vlines = [((2 : ℚ) ^ (14 : Nat))⁻¹,
          ((2 : ℚ) ^ (7 : Nat))⁻¹, 240, (2 : ℚ) ^ (16 : Nat)]
      ∧ plotResultW.vlines.length = 4
      ∧ plotResultW.texts.map (fun e => e.1) = plotResultW.vlines
      ∧ plotResultW.texts.map (fun e => e.2.1)
          = List.replicate 4 ((plotResultW.plotHeight : ℚ) + 1 / 5)
      ∧ plotResultW.texts.map (fun e => e.2.2)
          = ["FP16 min,\nFP8 E5 min\n(normal)", "FP8 E4 min\n(normal)",
             "FP8 E4 max", "FP16 max,\nFP8 E5 max"]) :=
  ⟨by decide, by rfl,
    c6_reference_lines pW pW [] "" "mean_abs" true false false false
      (1, 1) none none (by decide) plotResultW (by rfl)⟩

/-- Witness for C8 on a concrete `plot` call. -/
theorem c8_pruning_witness :
    ("mean_abs" ∈ Metrics.names ++ Metrics.full_names)
    ∧ (plot pW pW [sampleNode] "" "mean_abs" true false false false (1, 1)
        none none = Except.ok plotResultW)
    ∧ (plotResultW.prunedGraph
          = (if true then pW (pW [sampleNode]) else pW [sampleNode])
      ∧ plotResultW.df = graph_to_dataframe
          (if true then pW (pW [sampleNode]) else pW [sampleNode])) :=
  ⟨by decide, by rfl,
    c8_pruning pW pW [sampleNode] "" "mean_abs" true false false false
      (1, 1) none none (by decide) plotResultW (by rfl)⟩

/-- A directional record whose metrics are all NaN. -/
def nanDM : DirectionalMetrics :=
  { mean_abs := .nan, abs_mean := .nan, std := .nan, abs_max := .nan,
    abs_min := .nan, numel := .nan }

/-- A source node whose forward metric value is NaN. -/
def nanNode : Node :=
  { name := "a", clean_name := "a", requires_grad := false,
    metrics := { fwd := some nanDM, bwd := none }, args := [] }

/-- A destination node whose forward metric value is the finite 1. -/
def finNode : Node :=
  { name := "b", clean_name := "b", requires_grad := false,
    metrics := { fwd := some sampleDM, bwd := none }, args := [] }

/-- Counterexample to C5 as stated: a NaN source endpoint is clamped to
the minimum visible x-value, but no warning is logged for it — the NaN
check on the source runs only after the combined zero-or-NaN clamp, so it
never fires. The claim requires a warning for every non-finite endpoint. -/
theorem c5_counterexample :
    (dmGet nanDM "mean_abs" = some MVal.nan ∧ MVal.nan.isnan = true)
    ∧ draw_arrow "mean_abs" 1 false [] nanNode finNode "fwd"
        = some { warnings := [],
                 drawn := some ((MVal.finite 1, 0), (MVal.finite 1, 0), "") }
    := by
  exact ⟨⟨rfl, rfl⟩, by decide⟩

/-- Helper: a finite metric value is not NaN. -/
theorem MVal.isnan_finite (q : ℚ) : (MVal.finite q).isnan = false := rfl

/-- Helper: no metric value is both zero and NaN. -/
theorem MVal.isZero_isnan_false (v : MVal) (h1 : v.isZero = true)
    (h2 : v.isnan = true) : False := by
  cases v <;> simp [MVal.isZero, MVal.isnan] at h1 h2

/-- C5 as amended: for a well-formed `draw_arrow` call (a "fwd" or "bwd"
direction with the directional metrics and the metric attribute present),
an endpoint is clamped to the minimum visible x-value exactly when its
value is zero or NaN (infinities are untouched); a zero or NaN destination
value sets the annotation "0"; only a NaN destination logs a warning (a
NaN source is clamped silently); when the annotation is "0" and
`show_zero_tensors` is off the arrow is skipped entirely; backward arrows
swap the endpoints; and the call never raises. -/
theorem c5_draw_arrow_amended (metric : String) (minScale : ℚ)
    (szt : Bool) (idxs : List (String × Nat)) (a b : Node)
    (direction : String) (am bm : DirectionalMetrics) (ax0 bx0 : MVal)
    (hd : direction = "fwd" ∨ direction = "bwd")
    (ham : a.metrics.getDir direction = some am)
    (hbm : b.metrics.getDir direction = some bm)
    (hax : dmGet am metric = some ax0)
    (hbx : dmGet bm metric = some bx0) :
    draw_arrow metric minScale szt idxs a b direction = some {
      warnings := if bx0.isnan then [warnMsg b.clean_name] else [],
      drawn :=
        if (bx0.isZero || bx0.isnan) = true ∧ szt = false then none
        else some (
          if direction = "fwd" then
            ((if ax0.isZero || ax0.isnan then MVal.finite minScale else ax0,
              lookupIdx idxs a.clean_name),
             (if bx0.isZero || bx0.isnan then MVal.finite minScale else bx0,
              lookupIdx idxs b.clean_name),
             if bx0.isZero || bx0.isnan then "0" else "")
          else
            ((if bx0.isZero || bx0.isnan then MVal.finite minScale else bx0,
              lookupIdx idxs b.clean_name),
             (if ax0.isZero || ax0.isnan then MVal.finite minScale else ax0,
              lookupIdx idxs a.clean_name),
             if bx0.isZero || bx0.isnan then "0" else "")) } := by
  rcases hd with rfl | rfl
  · have hg : ¬("fwd" = "bwd"
        ∧ (a.metrics.bwd = none ∨ b.metrics.bwd = none)) := by
      rintro ⟨h1, _⟩
      exact absurd h1 (by decide)
    unfold draw_arrow
    rw [if_neg hg]
    simp only [ham, hbm, hax, hbx]
    cases haz : ax0.isZero <;> cases han : ax0.isnan <;>
      cases hbz : bx0.isZero <;> cases hbn : bx0.isnan <;> cases szt <;>
        first
          | exact (MVal.isZero_isnan_false ax0 haz han).elim
          | exact (MVal.isZero_isnan_false bx0 hbz hbn).elim
          | simp [haz, han, hbz, hbn, MVal.isnan_finite]
  · have ha' : a.metrics.bwd = some am := ham
    have hb' : b.metrics.bwd = some bm := hbm
    have hg : ¬("bwd" = "bwd"
        ∧ (a.metrics.bwd = none ∨ b.metrics.bwd = none)) := by
      rintro ⟨_, h2 | h2⟩
      · rw [ha'] at h2
        cases h2
      · rw [hb'] at h2
        cases h2
    unfold draw_arrow
    rw [if_neg hg]
    simp only [ham, hbm, hax, hbx]
    cases haz : ax0.isZero <;> cases han : ax0.isnan <;>
      cases hbz : bx0.isZero <;> cases hbn : bx0.isnan <;> cases szt <;>
        first
          | exact (MVal.isZero_isnan_false ax0 haz han).elim
          | exact (MVal.isZero_isnan_false bx0 hbz hbn).elim
          | simp [haz, han, hbz, hbn, MVal.isnan_finite]

/-- Witness for the amended C5 at a concrete call (NaN source endpoint,
finite destination endpoint, forward direction). -/
theorem c5_draw_arrow_amended_witness :
    draw_arrow "mean_abs" 1 true [] nanNode finNode "fwd" = some {
      warnings := if (MVal.finite 1).isnan
        then [warnMsg finNode.clean_name] else [],
      drawn :=
        if ((MVal.finite 1).isZero || (MVal.finite 1).isnan) = true
            ∧ true = false then none
        else some (
          if "fwd" = "fwd" then
            ((if MVal.nan.isZero || MVal.nan.isnan then MVal.finite 1
                else MVal.nan,
              lookupIdx [] nanNode.clean_name),
             (if (MVal.finite 1).isZero || (MVal.finite 1).isnan
                then MVal.finite 1 else MVal.finite 1,
              lookupIdx [] finNode.clean_name),
             if (MVal.finite 1).isZero || (MVal.finite 1).isnan
               then "0" else "")
          else
            ((if (MVal.finite 1).isZero || (MVal.finite 1).isnan
                then MVal.finite 1 else MVal.finite 1,
              lookupIdx [] finNode.clean_name),
             (if MVal.nan.isZero || MVal.nan.isnan then MVal.finite 1
                else MVal.nan,
              lookupIdx [] nanNode.clean_name),
             if (MVal.finite 1).isZero || (MVal.finite 1).isnan
               then "0" else "")) } :=
  c5_draw_arrow_amended "mean_abs" 1 true [] nanNode finNode "fwd"
    nanDM sampleDM MVal.nan (MVal.finite 1) (Or.inl rfl)
    rfl rfl rfl rfl

/-- `visualiser` (`analysis.py` lines 444-516): fabricate an example batch
(threading the tokenizer state), run the tracked model to obtain the
annotated graph (the collaborator `modelGraph` bundles `track_scales`, the
model call, the optional backward pass and `scales_graph`), then `plot`.
An exception in batch creation propagates (`none`). -/
def visualiser (seqsOf : Nat → Nat → List String)
    (modelGraph : Bool → List (List Nat) → List (List Nat) → List (List Nat)
      → List Node)
    (pruneNonFloat pruneSameScale : List Node → List Node)
    (t : Tokenizer) (batch_size seq_len : Nat) (backward : Bool)
    (title metric : String)
    (prune_same_scale show_arrows show_error_bars show_zero_tensors : Bool)
    (xlim : ℚ × ℚ) (xmin xmax : Option ℚ) :
    Tokenizer × Option (Except String PlotResult) :=
  match example_batch seqsOf t batch_size seq_len with
  | (t2, none) => (t2, none)
  | (t2, some (inputs, attn_mask, labels)) =>
      (t2, some (plot pruneNonFloat pruneSameScale
        (modelGraph backward inputs attn_mask labels) title metric
        prune_same_scale show_arrows show_error_bars show_zero_tensors
        xlim xmin xmax))

/-- Helper: the tokenizer returned by `_create_batch` is the input
tokenizer with the pad token substituted when it was absent. -/
theorem createBatch_fst (t : Tokenizer) (seqs : List String)
    (seq_len : Nat) :
    (createBatch t seqs seq_len).1
      = (if t.padToken = none then { t with padToken := t.eosToken }
         else t) := by
  rcases htc : tokenizerCall
      (if t.padToken = none then { t with padToken := t.eosToken } else t)
      seqs (seq_len + 1) with _ | ⟨ids, mask⟩ <;>
    simp [createBatch, htc]

/-- C10: when the tokenizer has no pad token, `_create_batch` mutates it
by setting the pad token to the end-of-sequence token, and the mutation
persists on the tokenizer the caller sees afterwards (made explicit here
by state passing); a tokenizer that already has a pad token is returned
unchanged. The same holds through `example_batch` and `visualiser`, which
call `_create_batch`. -/
theorem c10_pad_token_mutation (t : Tokenizer) (seqs : List String)
    (seqsOf : Nat → Nat → List String)
    (modelGraph : Bool → List (List Nat) → List (List Nat) → List (List Nat)
      → List Node)
    (pnf psc : List Node → List Node)
    (batch_size seq_len : Nat) (backward : Bool) (title metric : String)
    (prune_same_scale show_arrows show_error_bars show_zero_tensors : Bool)
    (xlim : ℚ × ℚ) (xmin xmax : Option ℚ) :
    (createBatch t seqs seq_len).1
        = (if t.padToken = none then { t with padToken := t.eosToken }
           else t)
    ∧ (example_batch seqsOf t batch_size seq_len).1
        = (if t.padToken = none then { t with padToken := t.eosToken }
           else t)
    ∧ (visualiser seqsOf modelGraph pnf psc t batch_size seq_len backward
        title metric prune_same_scale show_arrows show_error_bars
        show_zero_tensors xlim xmin xmax).1
        = (if t.padToken = none then { t with padToken := t.eosToken }
           else t) := by
  refine ⟨createBatch_fst t seqs seq_len,
    createBatch_fst t (seqsOf batch_size (seq_len * 4)) seq_len, ?_⟩
  unfold visualiser
  rcases he : example_batch seqsOf t batch_size seq_len with ⟨t2, ob⟩
  have h2 : t2 = (if t.padToken = none
      then { t with padToken := t.eosToken } else t) := by
    have := congrArg Prod.fst he
    rw [example_batch, createBatch_fst] at this
    exact this.symm
  rcases ob with _ | ⟨inputs, attn_mask, labels⟩ <;> simp [he, h2]

end UnitScaling
